import Mathlib

/-!
Shallow embedding of the GRANT statement execution engine of
`stmt/stmts/grant.go`: the data model of a parsed GRANT request, the
privilege-kind-to-catalog-column mapping, scope resolution, the existence
checks, and the mutation-trace semantics of `GrantStmt.Exec`.

The engine's external collaborators (the `mysqldef` privilege table, the
parser-side construction of principals, the generic INSERT/UPDATE statement
executors, the catalog scan interface and the session/schema accessors) are
not part of the provided slice; where a claim depends on them they are
modelled from the specification, and each such definition carries a doc
comment saying so.  Everything else is translated directly from the source.
-/

set_option autoImplicit false

/-- Modelled from the spec: the privilege kinds of the `mysqldef` package
(`mysql.PrivilegeType`), which is outside the provided slice.  The spec
describes a static privilege table whose database-scope set is strictly
smaller than the global one, plus the possibility of kinds with no column
mapping at all (surfaced as UnknownPrivilege).  `ShutdownPriv` is such an
unmapped kind. -/
inductive PrivilegeType
  | AllPriv
  | CreatePriv
  | SelectPriv
  | InsertPriv
  | UpdatePriv
  | DeletePriv
  | ShowDBPriv
  | CreateUserPriv
  | DropPriv
  | GrantPriv
  | AlterPriv
  | ExecutePriv
  | IndexPriv
  | ShutdownPriv
  deriving DecidableEq, Repr

/-- Modelled from the spec: the static table `mysql.Priv2UserCol` from
privilege kind to the boolean catalog column it controls.  Kept as an
association list; Go map lookup is by key and is order-independent, while
`range` iteration order is unspecified (see `composeGlobalPrivUpdateOrd`). -/
def Priv2UserCol : List (PrivilegeType × String) :=
  [ (.CreatePriv, "Create_priv")
  , (.SelectPriv, "Select_priv")
  , (.InsertPriv, "Insert_priv")
  , (.UpdatePriv, "Update_priv")
  , (.DeletePriv, "Delete_priv")
  , (.ShowDBPriv, "Show_db_priv")
  , (.CreateUserPriv, "Create_user_priv")
  , (.DropPriv, "Drop_priv")
  , (.GrantPriv, "Grant_priv")
  , (.AlterPriv, "Alter_priv")
  , (.ExecutePriv, "Execute_priv")
  , (.IndexPriv, "Index_priv") ]

/-- Modelled from the spec: `mysql.AllDBPrivs`, the privileges valid at
database scope — a strict subset of the domain of `Priv2UserCol`
(`ShowDBPriv` and `CreateUserPriv` are valid only at global scope). -/
def AllDBPrivs : List PrivilegeType :=
  [ .SelectPriv, .InsertPriv, .UpdatePriv, .DeletePriv, .CreatePriv
  , .DropPriv, .GrantPriv, .IndexPriv, .AlterPriv, .ExecutePriv ]

/-- Go map lookup `mysql.Priv2UserCol[priv]`. -/
def lookupUserCol (p : PrivilegeType) : Option String :=
  (Priv2UserCol.find? (fun e => e.1 == p)).map (fun e => e.2)

instance exceptDecEq {α β : Type} [DecidableEq α] [DecidableEq β] :
    DecidableEq (Except α β) := fun x y =>
  match x, y with
  | .ok a, .ok b =>
    if h : a = b then isTrue (by rw [h]) else isFalse (fun hc => h (Except.ok.inj hc))
  | .error a, .error b =>
    if h : a = b then isTrue (by rw [h]) else isFalse (fun hc => h (Except.error.inj hc))
  | .ok _, .error _ => isFalse (fun hc => Except.noConfusion hc)
  | .error _, .ok _ => isFalse (fun hc => Except.noConfusion hc)

/-- One `SET column = value` item of a composed UPDATE
(`expression.Assignment`); the expression is always the literal value
`expression.Value{Val: "Y"}`, kept here as the string itself. -/
structure Assignment where
  ColName : String
  Expr : String
  deriving DecidableEq, Repr

/-- Errors surfaced by the engine (`errors.Errorf` sites in grant.go), plus
`indexOutOfRange`, which models the Go runtime fault of evaluating `strs[1]`
on a split with fewer than two parts. -/
inductive Err
  | unknownUser (u : String)
  | missDBName
  | unknownSchemaName (n : String)
  | unknownPriv (p : PrivilegeType)
  | unknownDBPrivilege (p : PrivilegeType)
  | unknownGrantLevel (l : Nat)
  | indexOutOfRange
  deriving DecidableEq, Repr

/-- `composeGlobalPrivUpdate`, grant.go lines 157-178, with the enumeration
order of the `range mysql.Priv2UserCol` loop made an explicit parameter:
Go does not specify the iteration order of a map, so any enumeration of the
entries of `Priv2UserCol` (any permutation) is a possible run. -/
def composeGlobalPrivUpdateOrd (ord : List (PrivilegeType × String))
    (priv : PrivilegeType) : Except Err (List Assignment) :=
  if priv = .AllPriv then
    .ok (ord.map (fun e => ⟨e.2, "Y"⟩))
  else
    match lookupUserCol priv with
    | none => .error (.unknownPriv priv)
    | some col => .ok [⟨col, "Y"⟩]

/-- `composeGlobalPrivUpdate` at the table's declaration order. -/
def composeGlobalPrivUpdate (priv : PrivilegeType) : Except Err (List Assignment) :=
  composeGlobalPrivUpdateOrd Priv2UserCol priv

/-- The `for _, p := range mysql.AllDBPrivs` loop of `composeDBPrivUpdate`
(grant.go lines 200-211): one assignment per database-scope privilege, in
slice order; a missing column mapping aborts with the "Unknown db privilege"
error, whose payload is the original argument (always `AllPriv` here). -/
def dbAllPrivAssignments : List PrivilegeType → Except Err (List Assignment)
  | [] => .ok []
  | p :: rest =>
    match lookupUserCol p with
    | none => .error (.unknownDBPrivilege .AllPriv)
    | some v =>
      match dbAllPrivAssignments rest with
      | .error e => .error e
      | .ok l => .ok (⟨v, "Y"⟩ :: l)

/-- `composeDBPrivUpdate`, grant.go lines 198-223.  Note that the non-ALL
branch looks up the same map `Priv2UserCol` as the global composer. -/
def composeDBPrivUpdate (priv : PrivilegeType) : Except Err (List Assignment) :=
  if priv = .AllPriv then
    dbAllPrivAssignments AllDBPrivs
  else
    match lookupUserCol priv with
    | none => .error (.unknownPriv priv)
    | some col => .ok [⟨col, "Y"⟩]

/-- `coldef.PrivElem`: a privilege kind plus an optional column list
(column-level grants are represented but never read by this engine). -/
structure PrivElem where
  Priv : PrivilegeType
  Cols : List String
  deriving DecidableEq, Repr

/-- Modelled from the spec: the `coldef` grant-level constants are outside
the slice; only their distinctness matters.  `GrantLevel.Level` is kept as
the underlying integer so that values outside the three named levels exist,
as exercised by the `default` arm of `grantPriv`. -/
def grantLevelNone : Nat := 1

/-- Global scope (`coldef.GrantLevelGlobal`). -/
def grantLevelGlobal : Nat := 2

/-- Database scope (`coldef.GrantLevelDB`). -/
def grantLevelDB : Nat := 3

/-- Table scope (`coldef.GrantLevelTable`). -/
def grantLevelTable : Nat := 4

/-- `coldef.GrantLevel`: scope tag plus optional database / table name. -/
structure GrantLevel where
  Level : Nat
  DBName : String
  TableName : String
  deriving DecidableEq, Repr

/-- `coldef.UserSpecification`: the principal, written `name@host`. -/
structure UserSpecification where
  User : String
  deriving DecidableEq, Repr

/-- `GrantStmt`, grant.go lines 48-54. -/
structure GrantStmt where
  Privs : List PrivElem
  ObjectType : Nat
  Level : GrantLevel
  Users : List UserSpecification
  Text : String
  deriving DecidableEq, Repr

/-- Modelled from the spec: the ambient catalog and session environment the
engine reads — the user-privilege rows keyed (Host, User), the
database-privilege rows keyed (Host, User, DB), the session's current
schema, and the schema catalog (`SchemaByName` association, mapping a name
to the stored original name `DBInfo.Name.O`).  Only row keys are tracked:
the engine's claims concern row existence and the mutations issued, and an
UPDATE never changes a key. -/
structure Ctx where
  userRows : List (String × String)
  dbRows : List (String × String × String)
  currentSchema : String
  schemas : List (String × String)
  deriving DecidableEq, Repr

/-- Modelled from the spec: `InfoSchema().SchemaByName`. -/
def schemaByName (ctx : Ctx) (n : String) : Option String :=
  (ctx.schemas.find? (fun e => e.1 == n)).map (fun e => e.2)

/-- Modelled from the spec: `userExists(ctx, name, host)` — defined elsewhere
in the repository — composes an equality filter on (Host, User) over the
user-privilege table and tests whether at least one row matches. -/
def userExists (ctx : Ctx) (name host : String) : Bool :=
  ctx.userRows.any (fun r => r.1 == host && r.2 == name)

/-- `dbUserExists`, grant.go lines 241-261: filter the database-privilege
table by `composeDBTableFilter` (equality on Host and User, conjoined with
equality on DB) and test whether the scan produces at least one row. -/
def dbUserExists (ctx : Ctx) (name host db : String) : Bool :=
  ctx.dbRows.any (fun r => r.1 == host && r.2.1 == name && r.2.2 == db)

/-- Character-level split, the semantics of Go `strings.Split` for a
one-character separator: splitting the empty string yields one empty part,
and each separator occurrence starts a new part. -/
def splitAtChar (sep : Char) : List Char → List (List Char)
  | [] => [[]]
  | c :: cs =>
    let r := splitAtChar sep cs
    if c = sep then [] :: r
    else (c :: r.headD []) :: r.tail

/-- Go `strings.Split(s, sep)` for the one-character separator used by the
engine (`"@"`). -/
def goSplit (s : String) (sep : Char) : List String :=
  (splitAtChar sep s.data).map String.mk

/-- A catalog mutation issued by the engine: the INSERT built by
`initDBPrivEntry` (columns Host, User, DB; every privilege column left at
its default negative value), or an UPDATE built by `grantGlobalPriv` /
`grantDBPriv` (assignments plus the row filter's key values). -/
inductive Mutation
  | insertDBRow (host user db : String)
  | updateUserTable (asgns : List Assignment) (user host : String)
  | updateDBTable (asgns : List Assignment) (user host db : String)
  deriving DecidableEq, Repr

/-- Whether a mutation is a row insert. -/
def Mutation.isInsert : Mutation → Bool
  | .insertDBRow _ _ _ => true
  | _ => false

/-- The inserts contained in a mutation trace. -/
def insertsOf (tr : List Mutation) : List Mutation :=
  tr.filter Mutation.isInsert

/-- `getTargetSchema`, grant.go lines 263-280: take the level's database
name, substituting the session's current schema when it is empty; fail with
the "Miss DB name" error when still empty; look the resolved name up in the
schema catalog, failing with "Unknown schema name" when absent; otherwise
return the schema (its stored name `db.Name.O`).  Pure read: no mutation. -/
def getTargetSchema (s : GrantStmt) (ctx : Ctx) : Except Err String :=
  let dbName := s.Level.DBName
  let dbName2 := if dbName = "" then ctx.currentSchema else dbName
  if dbName2 = "" then .error .missDBName
  else
    match schemaByName ctx dbName2 with
    | none => .error (.unknownSchemaName dbName2)
    | some d => .ok d

/-- `initDBPrivEntry`, grant.go lines 125-142: build and execute one INSERT
into the database-privilege table with columns (Host, User, DB) only, so
every privilege column of the new row keeps its default negative value.  The
external `InsertIntoStmt.Exec` is modelled from the spec as appending the
row key and recording the insert in the trace. -/
def initDBPrivEntry (ctx : Ctx) (user host db : String) : Ctx × List Mutation :=
  ({ ctx with dbRows := ctx.dbRows ++ [(host, user, db)] },
   [Mutation.insertDBRow host user db])

/-- `checkAndInitDBPriv`, grant.go lines 109-123: resolve the target schema,
then insert a fresh default row exactly when `dbUserExists` finds none. -/
def checkAndInitDBPriv (s : GrantStmt) (ctx : Ctx) (user host : String) :
    Except Err (Ctx × List Mutation) :=
  match getTargetSchema s ctx with
  | .error e => .error e
  | .ok d =>
    if dbUserExists ctx user host d then .ok (ctx, [])
    else .ok (initDBPrivEntry ctx user host d)

/-- `grantGlobalPriv`, grant.go lines 181-196: compose the assignments, then
split the principal on `"@"` (the `_` arm models the Go index fault when
fewer than two parts exist) and issue one UPDATE of the user-privilege table
filtered by (User, Host). -/
def grantGlobalPriv (ctx : Ctx) (priv : PrivElem) (user : UserSpecification) :
    Except Err (Ctx × List Mutation) :=
  match composeGlobalPrivUpdate priv.Priv with
  | .error e => .error e
  | .ok asgns =>
    match goSplit user.User '@' with
    | userName :: host :: _ =>
      .ok (ctx, [Mutation.updateUserTable asgns userName host])
    | _ => .error .indexOutOfRange

/-- `grantDBPriv`, grant.go lines 283-302: resolve the target schema,
compose the assignments, split the principal, and issue one UPDATE of the
database-privilege table filtered by (User, Host, DB). -/
def grantDBPriv (s : GrantStmt) (ctx : Ctx) (priv : PrivElem)
    (user : UserSpecification) : Except Err (Ctx × List Mutation) :=
  match getTargetSchema s ctx with
  | .error e => .error e
  | .ok d =>
    match composeDBPrivUpdate priv.Priv with
    | .error e => .error e
    | .ok asgns =>
      match goSplit user.User '@' with
      | userName :: host :: _ =>
        .ok (ctx, [Mutation.updateDBTable asgns userName host d])
      | _ => .error .indexOutOfRange

/-- `grantTablePriv`, grant.go lines 305-307: the table-scope path returns
nil immediately — no mutation, no error, inputs unread. -/
def grantTablePriv (ctx : Ctx) (_priv : PrivElem) (_user : UserSpecification) :
    Except Err (Ctx × List Mutation) :=
  .ok (ctx, [])

/-- `grantPriv`, grant.go lines 144-155: dispatch on the grant level; any
level outside the three named constants hits the `default` arm and fails
with the "Unknown grant level" error. -/
def grantPriv (s : GrantStmt) (ctx : Ctx) (priv : PrivElem)
    (user : UserSpecification) : Except Err (Ctx × List Mutation) :=
  if s.Level.Level = grantLevelGlobal then grantGlobalPriv ctx priv user
  else if s.Level.Level = grantLevelDB then grantDBPriv s ctx priv user
  else if s.Level.Level = grantLevelTable then grantTablePriv ctx priv user
  else .error (.unknownGrantLevel s.Level.Level)

/-- Outcome of running (part of) a GRANT: the catalog key state reached, the
ordered trace of mutations already issued, and the error that stopped
execution, if any.  Go's `Exec` returns a nil record set (line 106), so no
result-set component is needed; mutations issued before an error persist,
exactly as in the source, where each sub-statement executes immediately. -/
structure ExecResult where
  ctx : Ctx
  trace : List Mutation
  err : Option Err
  deriving DecidableEq, Repr

/-- The `for _, priv := range s.Privs` loop of `Exec` (grant.go lines
98-104): grant each privilege in list order, stopping at the first error. -/
def execPrivs (s : GrantStmt) (user : UserSpecification) :
    List PrivElem → Ctx → ExecResult
  | [], ctx => ⟨ctx, [], none⟩
  | p :: rest, ctx =>
    match grantPriv s ctx p user with
    | .error e => ⟨ctx, [], some e⟩
    | .ok (ctx1, ms) =>
      let r := execPrivs s user rest ctx1
      ⟨r.ctx, ms ++ r.trace, r.err⟩

/-- The `for _, user := range s.Users` loop of `Exec` (grant.go lines
79-105): split the principal (the `_` arm models the Go index fault on a
malformed principal), verify the principal exists, run the database-scope
check-and-insert when the level is database scope, then grant each
privilege; an error aborts the remaining work. -/
def execUsers (s : GrantStmt) : List UserSpecification → Ctx → ExecResult
  | [], ctx => ⟨ctx, [], none⟩
  | u :: rest, ctx =>
    match goSplit u.User '@' with
    | userName :: host :: _ =>
      if userExists ctx userName host then
        match (if s.Level.Level = grantLevelDB
               then checkAndInitDBPriv s ctx userName host
               else .ok (ctx, [])) with
        | .error e => ⟨ctx, [], some e⟩
        | .ok (ctx1, m1) =>
          let r := execPrivs s u s.Privs ctx1
          match r.err with
          | some e => ⟨r.ctx, m1 ++ r.trace, some e⟩
          | none =>
            let r2 := execUsers s rest r.ctx
            ⟨r2.ctx, m1 ++ r.trace ++ r2.trace, r2.err⟩
      else ⟨ctx, [], some (.unknownUser u.User)⟩
    | _ => ⟨ctx, [], some .indexOutOfRange⟩

/-- `Exec`, grant.go lines 77-107: grant for each user in order. -/
def GrantStmt.Exec (s : GrantStmt) (ctx : Ctx) : ExecResult :=
  execUsers s s.Users ctx

/-- A successful `grantPriv` leaves the catalog keys unchanged and issues no
insert: every level's handler only ever emits UPDATE mutations. -/
theorem grantPriv_ok_shape (s : GrantStmt) (ctx : Ctx) (p : PrivElem)
    (u : UserSpecification) (c : Ctx) (ms : List Mutation)
    (h : grantPriv s ctx p u = .ok (c, ms)) :
    c = ctx ∧ insertsOf ms = [] := by
  unfold grantPriv grantGlobalPriv grantDBPriv grantTablePriv at h
  repeat' split at h
  any_goals exact Except.noConfusion h
  all_goals simp only [Except.ok.injEq, Prod.mk.injEq] at h
  all_goals obtain ⟨h1, h2⟩ := h
  all_goals subst h2
  all_goals exact ⟨h1.symm, by simp [insertsOf, Mutation.isInsert]⟩

/-- The per-privilege loop leaves the catalog keys unchanged and issues no
insert, whether it completes or stops at an error. -/
theorem execPrivs_shape (s : GrantStmt) (u : UserSpecification)
    (privs : List PrivElem) :
    ∀ ctx : Ctx, (execPrivs s u privs ctx).ctx = ctx ∧
      insertsOf (execPrivs s u privs ctx).trace = [] := by
  induction privs with
  | nil => intro ctx; simp [execPrivs, insertsOf]
  | cons p rest ih =>
    intro ctx
    simp only [execPrivs]
    cases hg : grantPriv s ctx p u with
    | error e => simp [insertsOf]
    | ok pr =>
      obtain ⟨c, ms⟩ := pr
      obtain ⟨hc, hms⟩ := grantPriv_ok_shape s ctx p u c ms hg
      rw [hc]
      refine ⟨(ih ctx).1, ?_⟩
      show insertsOf (ms ++ (execPrivs s u rest ctx).trace) = []
      have h2 := (ih ctx).2
      simp only [insertsOf] at hms h2 ⊢
      simp [List.filter_append, hms, h2]

/-- Claim C1: for an Execute of a Database-scope grant whose principal
exists, if no database-privilege row exists for the principal and the
resolved schema then exactly one default row insert appears in the mutation
trace and it precedes every other mutation; if such a row already exists,
the trace contains no insert at all; and in either case the row exists in
the catalog afterwards (so a second grant inserts nothing). -/
theorem grant_C1_db_scope_row_insert (s : GrantStmt) (ctx : Ctx)
    (u : UserSpecification) (name host d : String)
    (hu : s.Users = [u]) (hl : s.Level.Level = grantLevelDB)
    (hsplit : goSplit u.User '@' = [name, host])
    (hex : userExists ctx name host = true)
    (hts : getTargetSchema s ctx = .ok d) :
    (dbUserExists ctx name host d = false →
       insertsOf (GrantStmt.Exec s ctx).trace = [Mutation.insertDBRow host name d] ∧
       (GrantStmt.Exec s ctx).trace.head? = some (Mutation.insertDBRow host name d)) ∧
    (dbUserExists ctx name host d = true →
       insertsOf (GrantStmt.Exec s ctx).trace = []) ∧
    dbUserExists (GrantStmt.Exec s ctx).ctx name host d = true := by
  unfold GrantStmt.Exec
  rw [hu]
  simp only [execUsers, hsplit, hex, checkAndInitDBPriv, hts, hl, if_true]
  cases hdb : dbUserExists ctx name host d with
  | false =>
    simp only [hdb, Bool.false_eq_true, if_false, initDBPrivEntry]
    obtain ⟨hc1, ht1⟩ :=
      execPrivs_shape s u s.Privs { ctx with dbRows := ctx.dbRows ++ [(host, name, d)] }
    cases herr : (execPrivs s u s.Privs { ctx with dbRows := ctx.dbRows ++ [(host, name, d)] }).err with
    | some e =>
      simp only [herr, insertsOf] at hc1 ht1 ⊢
      refine ⟨fun _ => ⟨?_, ?_⟩, fun hf => hf.elim, ?_⟩
      · simp [List.filter_append, Mutation.isInsert, ht1]
      · simp
      · rw [hc1]; simp [dbUserExists, List.any_append]
    | none =>
      simp only [herr, insertsOf] at hc1 ht1 ⊢
      refine ⟨fun _ => ⟨?_, ?_⟩, fun hf => hf.elim, ?_⟩
      · simp [List.filter_append, Mutation.isInsert, ht1]
      · simp
      · rw [hc1]; simp [dbUserExists, List.any_append]
  | true =>
    simp only [hdb, if_true, eq_self_iff_true]
    obtain ⟨hc1, ht1⟩ := execPrivs_shape s u s.Privs ctx
    cases herr : (execPrivs s u s.Privs ctx).err with
    | some e =>
      simp only [herr, insertsOf] at hc1 ht1 ⊢
      refine ⟨fun hf => absurd hf (by simp), fun _ => ?_, ?_⟩
      · simp [List.filter_append, Mutation.isInsert, ht1]
      · rw [hc1]; exact hdb
    | none =>
      simp only [herr, insertsOf] at hc1 ht1 ⊢
      refine ⟨fun hf => absurd hf (by simp), fun _ => ?_, ?_⟩
      · simp [List.filter_append, Mutation.isInsert, ht1]
      · rw [hc1]; exact hdb

/-- Concrete catalog used by the witnesses: principal alice at host %, one
schema db1, no database-privilege rows. -/
def wCtx : Ctx := ⟨[("%", "alice")], [], "", [("db1", "db1")]⟩

/-- Concrete database-scope request used by the witnesses. -/
def wStmtDB : GrantStmt :=
  ⟨[⟨.SelectPriv, []⟩], 0, ⟨grantLevelDB, "db1", ""⟩, [⟨"alice@%"⟩], "g"⟩

/-- Witness for claim C1 at the concrete request `wStmtDB` on `wCtx`. -/
theorem grant_C1_db_scope_row_insert_witness :
    insertsOf (GrantStmt.Exec wStmtDB wCtx).trace =
      [Mutation.insertDBRow "%" "alice" "db1"] ∧
    (GrantStmt.Exec wStmtDB wCtx).trace.head? =
      some (Mutation.insertDBRow "%" "alice" "db1") :=
  (grant_C1_db_scope_row_insert wStmtDB wCtx ⟨"alice@%"⟩ "alice" "%" "db1"
    rfl rfl (by decide) (by decide) (by decide)).1 (by decide)

/-- With any scope other than Database, the per-user loop never records an
insert mutation, whether it completes or stops at an error. -/
theorem execUsers_noInsert (s : GrantStmt) (hl : ¬ s.Level.Level = grantLevelDB) :
    ∀ (us : List UserSpecification) (ctx : Ctx),
      insertsOf (execUsers s us ctx).trace = [] := by
  intro us
  induction us with
  | nil => intro ctx; simp [execUsers, insertsOf]
  | cons u rest ih =>
    intro ctx
    simp only [execUsers]
    split
    · rename_i userName host tail heq
      by_cases hue : userExists ctx userName host = true
      · rw [if_pos hue, if_neg hl]
        obtain ⟨hc1, ht1⟩ := execPrivs_shape s u s.Privs ctx
        cases herr : (execPrivs s u s.Privs ctx).err with
        | some e =>
          simp only [herr, insertsOf] at ht1 ⊢
          simp [List.filter_append, ht1]
        | none =>
          simp only [herr, insertsOf] at ht1 ⊢
          rw [hc1]
          have ih2 := ih ctx
          simp only [insertsOf] at ih2
          simp [List.filter_append, ht1, ih2]
      · rw [if_neg hue]
        simp [insertsOf]
    · simp [insertsOf]

/-- Claim C2: for every request whose scope is not Database, Execute issues
no catalog-row insert — the mutation trace contains only updates. -/
theorem grant_C2_non_db_no_insert (s : GrantStmt) (ctx : Ctx)
    (hl : ¬ s.Level.Level = grantLevelDB) :
    insertsOf (GrantStmt.Exec s ctx).trace = [] :=
  execUsers_noInsert s hl s.Users ctx

/-- Concrete global-scope request used by the witnesses. -/
def wStmtGlobal : GrantStmt :=
  ⟨[⟨.AllPriv, []⟩], 0, ⟨grantLevelGlobal, "", ""⟩, [⟨"bob@localhost"⟩], "g"⟩

/-- Concrete catalog for the global-scope witnesses. -/
def wCtxG : Ctx := ⟨[("localhost", "bob")], [], "", []⟩

/-- Witness for claim C2 at the concrete request `wStmtGlobal` on `wCtxG`. -/
theorem grant_C2_non_db_no_insert_witness :
    insertsOf (GrantStmt.Exec wStmtGlobal wCtxG).trace = [] :=
  grant_C2_non_db_no_insert wStmtGlobal wCtxG (by decide)

/-- Claim C3: the ALL expansion at database scope is exactly the column
list of the database-scope-valid privileges; every privilege valid only at
global scope (present in the map but outside `AllDBPrivs`) has its column
excluded from that expansion; and the global and database ALL expansions
differ. -/
theorem grant_C3_all_db_expansion :
    composeDBPrivUpdate PrivilegeType.AllPriv =
      .ok (AllDBPrivs.map (fun p => ⟨(lookupUserCol p).getD "", "Y"⟩)) ∧
    (∀ e ∈ Priv2UserCol, AllDBPrivs.contains e.1 = false →
       (AllDBPrivs.map (fun p => (lookupUserCol p).getD "")).contains e.2 = false) ∧
    lookupUserCol PrivilegeType.ShowDBPriv = some "Show_db_priv" ∧
    AllDBPrivs.contains PrivilegeType.ShowDBPriv = false ∧
    composeGlobalPrivUpdate PrivilegeType.AllPriv ≠
      composeDBPrivUpdate PrivilegeType.AllPriv := by
  decide

/-- Claim C4 counterexample: `ShowDBPriv` is valid only at global scope —
it is excluded from the database-scope ALL expansion — yet expanding it as a
named privilege at Database scope succeeds with its column instead of
failing with UnknownPrivilege, because `composeDBPrivUpdate` looks the kind
up in the same map `Priv2UserCol` used at global scope. -/
theorem grant_C4_counterexample :
    AllDBPrivs.contains PrivilegeType.ShowDBPriv = false ∧
    composeDBPrivUpdate PrivilegeType.ShowDBPriv =
      .ok [⟨"Show_db_priv", "Y"⟩] := by
  decide

/-- Claim C4 (amended): for every named (non-ALL) privilege kind, expansion
at either scope returns exactly one column assignment when the kind is in
the shared privilege-to-column map, and fails with UnknownPrivilege exactly
when it is not; the lookup is scope-independent, so a kind valid only at
global scope does not fail at Database scope. -/
theorem grant_C4_named_priv_one_column (p : PrivilegeType) (col : String)
    (hp : ¬ p = PrivilegeType.AllPriv) :
    (lookupUserCol p = some col →
       composeGlobalPrivUpdate p = .ok [⟨col, "Y"⟩] ∧
       composeDBPrivUpdate p = .ok [⟨col, "Y"⟩]) ∧
    (lookupUserCol p = none →
       composeGlobalPrivUpdate p = .error (.unknownPriv p) ∧
       composeDBPrivUpdate p = .error (.unknownPriv p)) := by
  constructor
  · intro hc
    simp [composeGlobalPrivUpdate, composeGlobalPrivUpdateOrd,
          composeDBPrivUpdate, hp, hc]
  · intro hc
    simp [composeGlobalPrivUpdate, composeGlobalPrivUpdateOrd,
          composeDBPrivUpdate, hp, hc]

/-- Witness for the amended claim C4 at the concrete kind `SelectPriv`. -/
theorem grant_C4_named_priv_one_column_witness :
    composeGlobalPrivUpdate PrivilegeType.SelectPriv = .ok [⟨"Select_priv", "Y"⟩] ∧
    composeDBPrivUpdate PrivilegeType.SelectPriv = .ok [⟨"Select_priv", "Y"⟩] :=
  (grant_C4_named_priv_one_column PrivilegeType.SelectPriv "Select_priv"
    (by decide)).1 (by decide)

/-- Claim C5: when the first principal in the request has no matching row in
the user catalog, Execute stops with the unknown-user error before issuing
any mutation: the trace is empty and the catalog keys are untouched. -/
theorem grant_C5_unknown_user (s : GrantStmt) (ctx : Ctx)
    (u : UserSpecification) (rest : List UserSpecification) (name host : String)
    (hu : s.Users = u :: rest)
    (hsplit : goSplit u.User '@' = [name, host])
    (hex : userExists ctx name host = false) :
    (GrantStmt.Exec s ctx).err = some (Err.unknownUser u.User) ∧
    (GrantStmt.Exec s ctx).trace = [] ∧
    (GrantStmt.Exec s ctx).ctx = ctx := by
  unfold GrantStmt.Exec
  rw [hu]
  simp [execUsers, hsplit, hex]

/-- Catalog with no users at all, for the unknown-principal witness. -/
def wCtxEmpty : Ctx := ⟨[], [], "", []⟩

/-- Witness for claim C5: granting to alice at % over an empty catalog. -/
theorem grant_C5_unknown_user_witness :
    (GrantStmt.Exec wStmtDB wCtxEmpty).err = some (Err.unknownUser "alice@%") ∧
    (GrantStmt.Exec wStmtDB wCtxEmpty).trace = [] ∧
    (GrantStmt.Exec wStmtDB wCtxEmpty).ctx = wCtxEmpty :=
  grant_C5_unknown_user wStmtDB wCtxEmpty ⟨"alice@%"⟩ [] "alice" "%"
    rfl (by decide) (by decide)

/-- Claim C7: target-schema resolution substitutes the session's current
schema for an empty level name, fails with the missing-schema error when the
resolved name is still empty, fails with the unknown-schema error when the
catalog lookup finds nothing, and otherwise returns the schema — a pure
read, as `getTargetSchema` neither receives nor returns any mutation. -/
theorem grant_C7_target_schema (s : GrantStmt) (ctx : Ctx) (d : String) :
    ((if s.Level.DBName = "" then ctx.currentSchema else s.Level.DBName) = "" →
       getTargetSchema s ctx = .error Err.missDBName) ∧
    (¬ (if s.Level.DBName = "" then ctx.currentSchema else s.Level.DBName) = "" →
       schemaByName ctx
         (if s.Level.DBName = "" then ctx.currentSchema else s.Level.DBName) = none →
       getTargetSchema s ctx =
         .error (Err.unknownSchemaName
           (if s.Level.DBName = "" then ctx.currentSchema else s.Level.DBName))) ∧
    (¬ (if s.Level.DBName = "" then ctx.currentSchema else s.Level.DBName) = "" →
       schemaByName ctx
         (if s.Level.DBName = "" then ctx.currentSchema else s.Level.DBName) = some d →
       getTargetSchema s ctx = .ok d) := by
  simp only [getTargetSchema]
  refine ⟨fun h0 => ?_, fun h0 h1 => ?_, fun h0 h1 => ?_⟩
  · rw [if_pos h0]
  · rw [if_neg h0, h1]
  · rw [if_neg h0, h1]

/-- Witness for claim C7: resolving db1 in the witness catalog. -/
theorem grant_C7_target_schema_witness :
    getTargetSchema wStmtDB wCtx = .ok "db1" :=
  (grant_C7_target_schema wStmtDB wCtx "db1").2.2 (by decide) (by decide)

/-- First part of a principal's split, `strs[0]`. -/
def userNameOf (u : UserSpecification) : String :=
  (goSplit u.User '@').headD ""

/-- Second part of a principal's split, `strs[1]`. -/
def hostOf (u : UserSpecification) : String :=
  (goSplit u.User '@').tail.headD ""

/-- A split with at least two parts starts with `strs[0]` and `strs[1]`. -/
theorem goSplit_shape (u : UserSpecification)
    (h : 2 ≤ (goSplit u.User '@').length) :
    ∃ t, goSplit u.User '@' = userNameOf u :: hostOf u :: t := by
  cases hg : goSplit u.User '@' with
  | nil => rw [hg] at h; simp at h
  | cons a t1 =>
    cases t1 with
    | nil => rw [hg] at h; simp at h
    | cons b t2 => exact ⟨t2, by simp [userNameOf, hostOf, hg]⟩

/-- At table scope the per-privilege loop is a complete no-op: every
iteration takes the `grantTablePriv` stub. -/
theorem execPrivs_table (s : GrantStmt) (u : UserSpecification)
    (hl : s.Level.Level = grantLevelTable) :
    ∀ (privs : List PrivElem) (ctx : Ctx),
      execPrivs s u privs ctx = ⟨ctx, [], none⟩ := by
  intro privs
  induction privs with
  | nil => intro ctx; rfl
  | cons p rest ih =>
    intro ctx
    have hgp : grantPriv s ctx p u = .ok (ctx, []) := by
      simp [grantPriv, hl, grantTablePriv, grantLevelTable, grantLevelGlobal,
            grantLevelDB]
    simp only [execPrivs, hgp]
    simp [ih]

/-- When the scope is not Database and the per-privilege loop is a no-op,
the whole per-user loop succeeds without touching anything, provided every
principal splits into at least two parts and exists. -/
theorem execUsers_noop (s : GrantStmt) (hndb : ¬ s.Level.Level = grantLevelDB)
    (hnoop : ∀ (u : UserSpecification) (ctx : Ctx),
       execPrivs s u s.Privs ctx = ⟨ctx, [], none⟩) :
    ∀ (us : List UserSpecification) (ctx : Ctx),
      (∀ u ∈ us, 2 ≤ (goSplit u.User '@').length ∧
         userExists ctx (userNameOf u) (hostOf u) = true) →
      execUsers s us ctx = ⟨ctx, [], none⟩ := by
  intro us
  induction us with
  | nil => intro ctx _; rfl
  | cons u rest ih =>
    intro ctx hw
    obtain ⟨hlen, hue⟩ := hw u (List.mem_cons_self u rest)
    obtain ⟨t, hshape⟩ := goSplit_shape u hlen
    simp only [execUsers, hshape]
    rw [if_pos hue, if_neg hndb]
    simp only [hnoop u ctx]
    have hr := ih ctx (fun v hv => hw v (List.mem_cons_of_mem u hv))
    simp [hr]

/-- Claim C8: a Table-scope grant whose principals all exist succeeds and
performs no mutation at all — the table-scope path is a no-op stub. -/
theorem grant_C8_table_scope_noop (s : GrantStmt) (ctx : Ctx)
    (hl : s.Level.Level = grantLevelTable)
    (hw : ∀ u ∈ s.Users, 2 ≤ (goSplit u.User '@').length ∧
            userExists ctx (userNameOf u) (hostOf u) = true) :
    (GrantStmt.Exec s ctx).err = none ∧
    (GrantStmt.Exec s ctx).trace = [] ∧
    (GrantStmt.Exec s ctx).ctx = ctx := by
  have hndb : ¬ s.Level.Level = grantLevelDB := by
    rw [hl]; decide
  have h := execUsers_noop s hndb (execPrivs_table s · hl s.Privs) s.Users ctx hw
  unfold GrantStmt.Exec
  rw [h]
  exact ⟨rfl, rfl, rfl⟩

/-- Concrete table-scope request for the witnesses. -/
def wStmtTable : GrantStmt :=
  ⟨[⟨.SelectPriv, []⟩], 0, ⟨grantLevelTable, "db1", "tbl"⟩, [⟨"carol@%"⟩], "g"⟩

/-- Catalog with principal carol at %, for the table-scope witness. -/
def wCtxT : Ctx := ⟨[("%", "carol")], [], "", []⟩

/-- Witness for claim C8 at the concrete request `wStmtTable` on `wCtxT`. -/
theorem grant_C8_table_scope_noop_witness :
    (GrantStmt.Exec wStmtTable wCtxT).err = none ∧
    (GrantStmt.Exec wStmtTable wCtxT).trace = [] ∧
    (GrantStmt.Exec wStmtTable wCtxT).ctx = wCtxT :=
  grant_C8_table_scope_noop wStmtTable wCtxT rfl (by decide)

/-- Claim C10: with a grant level outside the three named constants, Execute
still succeeds when the privilege list is empty — the unknown-grant-level
error lives inside the per-privilege loop — and is surfaced as soon as one
privilege is requested. -/
theorem grant_C10_unknown_level (s : GrantStmt) (ctx : Ctx)
    (hl1 : ¬ s.Level.Level = grantLevelGlobal)
    (hl2 : ¬ s.Level.Level = grantLevelDB)
    (hl3 : ¬ s.Level.Level = grantLevelTable)
    (hw : ∀ u ∈ s.Users, 2 ≤ (goSplit u.User '@').length ∧
            userExists ctx (userNameOf u) (hostOf u) = true) :
    (s.Privs = [] → (GrantStmt.Exec s ctx).err = none) ∧
    (∀ u0 rest p ps, s.Users = u0 :: rest → s.Privs = p :: ps →
       (GrantStmt.Exec s ctx).err = some (Err.unknownGrantLevel s.Level.Level)) := by
  constructor
  · intro hp
    have h := execUsers_noop s hl2 (fun v c => by rw [hp]; rfl) s.Users ctx hw
    unfold GrantStmt.Exec
    rw [h]
  · intro u0 rest p ps hu hp
    unfold GrantStmt.Exec
    rw [hu]
    obtain ⟨hlen, hue⟩ := hw u0 (by rw [hu]; exact List.mem_cons_self u0 rest)
    obtain ⟨t, hshape⟩ := goSplit_shape u0 hlen
    simp only [execUsers, hshape]
    rw [if_pos hue, if_neg hl2]
    have hgp : grantPriv s ctx p u0 =
        .error (.unknownGrantLevel s.Level.Level) := by
      simp [grantPriv, hl1, hl2, hl3]
    have hep : execPrivs s u0 s.Privs ctx =
        ⟨ctx, [], some (.unknownGrantLevel s.Level.Level)⟩ := by
      rw [hp]; simp only [execPrivs, hgp]
    simp [hep]

/-- Concrete request with an out-of-range grant level and no privileges. -/
def wStmtWeird : GrantStmt := ⟨[], 0, ⟨7, "", ""⟩, [⟨"bob@localhost"⟩], "g"⟩

/-- Witness for claim C10: the empty-privilege half at level 7. -/
theorem grant_C10_unknown_level_witness :
    (GrantStmt.Exec wStmtWeird wCtxG).err = none :=
  (grant_C10_unknown_level wStmtWeird wCtxG (by decide) (by decide) (by decide)
    (by decide)).1 rfl

/-- Modelled from the spec: construction-time validation of a Principal by
the parser, which is outside the provided slice — a principal string must
split into exactly two non-empty parts on the separator, and any other
string is rejected at construction time. -/
def mkUserSpecification (str : String) : Option UserSpecification :=
  match goSplit str '@' with
  | [name, host] => if name = "" ∨ host = "" then none else some ⟨str⟩
  | _ => none

/-- Splitting a list without the separator yields the single whole part. -/
theorem splitAtChar_no_sep (sep : Char) (l : List Char) (h : sep ∉ l) :
    splitAtChar sep l = [l] := by
  induction l with
  | nil => rfl
  | cons c cs ih =>
    rw [List.mem_cons] at h
    push_neg at h
    have hc : ¬ c = sep := fun hh => h.1 hh.symm
    simp [splitAtChar, ih h.2, hc]

/-- A successfully constructed principal splits into exactly two parts. -/
theorem mkUserSpecification_shape (str : String)
    (h : (mkUserSpecification str).isSome = true) :
    ∃ n h2, goSplit str '@' = [n, h2] := by
  unfold mkUserSpecification at h
  split at h
  · rename_i name host heq
    exact ⟨name, host, heq⟩
  · simp at h

/-- Schema resolution only ever fails with the missing-schema or
unknown-schema error, never with the index fault. -/
theorem getTargetSchema_not_ioor (s : GrantStmt) (ctx : Ctx) :
    ¬ getTargetSchema s ctx = .error Err.indexOutOfRange := by
  simp only [getTargetSchema]
  repeat' split
  all_goals intro hc
  any_goals exact Except.noConfusion hc
  all_goals exact Err.noConfusion (Except.error.inj hc)

/-- The global composer only ever fails with the unknown-privilege error. -/
theorem composeGlobalPrivUpdate_not_ioor (p : PrivilegeType) :
    ¬ composeGlobalPrivUpdate p = .error Err.indexOutOfRange := by
  unfold composeGlobalPrivUpdate composeGlobalPrivUpdateOrd
  split
  · simp
  · split
    · simp
    · simp

/-- The ALL-expansion loop of the database composer only ever fails with the
unknown-db-privilege error. -/
theorem dbAllPrivAssignments_not_ioor (ps : List PrivilegeType) :
    ¬ dbAllPrivAssignments ps = .error Err.indexOutOfRange := by
  induction ps with
  | nil => simp [dbAllPrivAssignments]
  | cons p rest ih =>
    simp only [dbAllPrivAssignments]
    split
    · simp
    · split
      · rename_i e heq
        intro hc
        simp only [Except.error.injEq] at hc
        rw [hc] at heq
        exact ih heq
      · simp

/-- The database composer only ever fails with the unknown-privilege or
unknown-db-privilege error. -/
theorem composeDBPrivUpdate_not_ioor (p : PrivilegeType) :
    ¬ composeDBPrivUpdate p = .error Err.indexOutOfRange := by
  unfold composeDBPrivUpdate
  split
  · exact dbAllPrivAssignments_not_ioor AllDBPrivs
  · split
    · simp
    · simp

/-- The database-scope check-and-insert step never index-faults: its only
errors come from schema resolution. -/
theorem checkAndInitDBPriv_not_ioor (s : GrantStmt) (ctx : Ctx)
    (user host : String) :
    ¬ checkAndInitDBPriv s ctx user host = .error Err.indexOutOfRange := by
  intro hc
  unfold checkAndInitDBPriv at hc
  cases hts : getTargetSchema s ctx with
  | error e =>
    rw [hts] at hc
    simp only [Except.error.injEq] at hc
    rw [hc] at hts
    exact getTargetSchema_not_ioor s ctx hts
  | ok d =>
    rw [hts] at hc
    by_cases hdb : dbUserExists ctx user host d = true
    · simp [hdb] at hc
    · simp [hdb] at hc

/-- Granting one privilege to a principal whose split has at least two parts
never index-faults: its errors are unknown privilege, unknown schema,
missing schema or unknown grant level. -/
theorem grantPriv_not_ioor (s : GrantStmt) (ctx : Ctx) (p : PrivElem)
    (u : UserSpecification) (n h : String) (t : List String)
    (hsp : goSplit u.User '@' = n :: h :: t) :
    ¬ grantPriv s ctx p u = .error Err.indexOutOfRange := by
  intro hc
  unfold grantPriv at hc
  by_cases h1 : s.Level.Level = grantLevelGlobal
  · rw [if_pos h1] at hc
    unfold grantGlobalPriv at hc
    cases hcg : composeGlobalPrivUpdate p.Priv with
    | error e =>
      rw [hcg] at hc
      simp only [Except.error.injEq] at hc
      rw [hc] at hcg
      exact composeGlobalPrivUpdate_not_ioor p.Priv hcg
    | ok asgns =>
      rw [hcg, hsp] at hc
      simp at hc
  · rw [if_neg h1] at hc
    by_cases h2 : s.Level.Level = grantLevelDB
    · rw [if_pos h2] at hc
      unfold grantDBPriv at hc
      cases hts : getTargetSchema s ctx with
      | error e =>
        rw [hts] at hc
        simp only [Except.error.injEq] at hc
        rw [hc] at hts
        exact getTargetSchema_not_ioor s ctx hts
      | ok d =>
        rw [hts] at hc
        cases hcg : composeDBPrivUpdate p.Priv with
        | error e =>
          rw [hcg] at hc
          simp only [Except.error.injEq] at hc
          rw [hc] at hcg
          exact composeDBPrivUpdate_not_ioor p.Priv hcg
        | ok asgns =>
          rw [hcg, hsp] at hc
          simp at hc
    · rw [if_neg h2] at hc
      by_cases h3 : s.Level.Level = grantLevelTable
      · rw [if_pos h3] at hc
        exact Except.noConfusion hc
      · rw [if_neg h3] at hc
        exact Err.noConfusion (Except.error.inj hc)

/-- The per-privilege loop never surfaces an index fault when the
principal's split has at least two parts. -/
theorem execPrivs_not_ioor (s : GrantStmt) (u : UserSpecification)
    (n h : String) (t : List String) (hsp : goSplit u.User '@' = n :: h :: t) :
    ∀ (privs : List PrivElem) (ctx : Ctx),
      ¬ (execPrivs s u privs ctx).err = some Err.indexOutOfRange := by
  intro privs
  induction privs with
  | nil => intro ctx hc; simp [execPrivs] at hc
  | cons p rest ih =>
    intro ctx hc
    simp only [execPrivs] at hc
    cases hg : grantPriv s ctx p u with
    | error e =>
      rw [hg] at hc
      simp at hc
      rw [hc] at hg
      exact grantPriv_not_ioor s ctx p u n h t hsp hg
    | ok pr =>
      obtain ⟨c, ms⟩ := pr
      rw [hg] at hc
      simp at hc
      exact ih c hc

/-- The per-user loop never surfaces an index fault when every principal in
it was successfully constructed. -/
theorem execUsers_not_ioor (s : GrantStmt) :
    ∀ (us : List UserSpecification) (ctx : Ctx),
      (∀ u ∈ us, (mkUserSpecification u.User).isSome = true) →
      ¬ (execUsers s us ctx).err = some Err.indexOutOfRange := by
  intro us
  induction us with
  | nil => intro ctx _ hc; simp [execUsers] at hc
  | cons u rest ih =>
    intro ctx hw hc
    obtain ⟨n, h2, hsp⟩ :=
      mkUserSpecification_shape u.User (hw u (List.mem_cons_self u rest))
    simp only [execUsers, hsp] at hc
    by_cases hue : userExists ctx n h2 = true
    · rw [if_pos hue] at hc
      cases hci : (if s.Level.Level = grantLevelDB
                   then checkAndInitDBPriv s ctx n h2
                   else Except.ok (ctx, ([] : List Mutation))) with
      | error e =>
        rw [hci] at hc
        simp at hc
        by_cases hdb : s.Level.Level = grantLevelDB
        · rw [if_pos hdb] at hci
          rw [hc] at hci
          exact checkAndInitDBPriv_not_ioor s ctx n h2 hci
        · rw [if_neg hdb] at hci
          exact Except.noConfusion hci
      | ok pr =>
        obtain ⟨c1, m1⟩ := pr
        rw [hci] at hc
        cases herr : (execPrivs s u s.Privs c1).err with
        | some e =>
          simp only [herr, Option.some.injEq] at hc
          rw [hc] at herr
          exact execPrivs_not_ioor s u n h2 [] hsp s.Privs c1 herr
        | none =>
          simp only [herr] at hc
          exact ih (execPrivs s u s.Privs c1).ctx
            (fun v hv => hw v (List.mem_cons_of_mem u hv)) hc
    · rw [if_neg hue] at hc
      simp at hc

/-- Claim C6: a successfully constructed principal splits into exactly two
non-empty parts on the separator; a string without the separator is
rejected at construction time; and for a request whose principals were all
successfully constructed, Execute never reaches the out-of-range index
fault that an unguarded split would otherwise make possible. -/
theorem grant_C6_principal_split :
    (∀ (str : String) (u : UserSpecification), mkUserSpecification str = some u →
       u.User = str ∧ (goSplit str '@').length = 2 ∧
       ¬ (goSplit str '@').headD "" = "" ∧
       ¬ (goSplit str '@').tail.headD "" = "") ∧
    (∀ str : String, '@' ∉ str.data → mkUserSpecification str = none) ∧
    (∀ (s : GrantStmt) (ctx : Ctx),
       (∀ u ∈ s.Users, (mkUserSpecification u.User).isSome = true) →
       ¬ (GrantStmt.Exec s ctx).err = some Err.indexOutOfRange) := by
  refine ⟨?_, ?_, ?_⟩
  · intro str u hmk
    unfold mkUserSpecification at hmk
    split at hmk
    · rename_i name host heq
      split at hmk
      · exact Option.noConfusion hmk
      · rename_i hne
        rw [not_or] at hne
        obtain ⟨hmk2⟩ := Option.some.inj hmk
        exact ⟨rfl, by rw [heq]; rfl, by simp [heq, hne.1], by simp [heq, hne.2]⟩
    · exact Option.noConfusion hmk
  · intro str hnc
    have hs : goSplit str '@' = [str] := by
      unfold goSplit
      rw [splitAtChar_no_sep '@' str.data hnc]
      rfl
    simp [mkUserSpecification, hs]
  · intro s ctx hw
    exact execUsers_not_ioor s s.Users ctx hw

/-- The map table enumerated in a different (equally valid) iteration
order: its first two entries are transposed. -/
def ordSwapped : List (PrivilegeType × String) :=
  [ (.SelectPriv, "Select_priv")
  , (.CreatePriv, "Create_priv")
  , (.InsertPriv, "Insert_priv")
  , (.UpdatePriv, "Update_priv")
  , (.DeletePriv, "Delete_priv")
  , (.ShowDBPriv, "Show_db_priv")
  , (.CreateUserPriv, "Create_user_priv")
  , (.DropPriv, "Drop_priv")
  , (.GrantPriv, "Grant_priv")
  , (.AlterPriv, "Alter_priv")
  , (.ExecutePriv, "Execute_priv")
  , (.IndexPriv, "Index_priv") ]

/-- Result equivalence up to reordering of the assignment list: equal
errors, or permuted assignment lists. -/
def ExceptPerm : Except Err (List Assignment) → Except Err (List Assignment) → Prop
  | .ok l1, .ok l2 => l1.Perm l2
  | .error e1, .error e2 => e1 = e2
  | _, _ => False

/-- Claim C9 counterexample: enumerating the Go map `Priv2UserCol` in a
different, equally valid iteration order changes the assignment list the
global ALL expansion returns, so two invocations of Expand with the same
inputs need not produce the same list. -/
theorem grant_C9_counterexample :
    ordSwapped.Perm Priv2UserCol ∧
    ¬ composeGlobalPrivUpdateOrd ordSwapped PrivilegeType.AllPriv =
        composeGlobalPrivUpdate PrivilegeType.AllPriv := by
  constructor
  · unfold ordSwapped Priv2UserCol
    exact List.Perm.swap _ _ _
  · decide

/-- Claim C9 (amended): Expand is side-effect-free and deterministic up to
the unspecified map iteration order — for any two valid enumerations of the
map the global results agree up to permutation of the assignment list, and
for every named (non-ALL) kind they are identical; the database-scope
composer does not range over the map at all, so it carries no order
parameter in this embedding and is deterministic by construction. -/
theorem grant_C9_deterministic_up_to_perm
    (ord1 ord2 : List (PrivilegeType × String)) (p : PrivilegeType)
    (h1 : ord1.Perm Priv2UserCol) (h2 : ord2.Perm Priv2UserCol) :
    ExceptPerm (composeGlobalPrivUpdateOrd ord1 p)
      (composeGlobalPrivUpdateOrd ord2 p) ∧
    (¬ p = PrivilegeType.AllPriv →
       composeGlobalPrivUpdateOrd ord1 p = composeGlobalPrivUpdateOrd ord2 p) := by
  constructor
  · by_cases hp : p = PrivilegeType.AllPriv
    · subst hp
      simp only [composeGlobalPrivUpdateOrd, if_pos rfl]
      show (ord1.map _).Perm (ord2.map _)
      exact ((h1.map _).trans (h2.map _).symm)
    · simp only [composeGlobalPrivUpdateOrd, if_neg hp]
      cases hl : lookupUserCol p with
      | none => exact rfl
      | some col => exact List.Perm.refl _
  · intro hp
    simp [composeGlobalPrivUpdateOrd, hp]

/-- Witness for the amended claim C9: the declaration order and the
transposed order yield permuted global ALL expansions. -/
theorem grant_C9_deterministic_up_to_perm_witness :
    ExceptPerm (composeGlobalPrivUpdateOrd Priv2UserCol PrivilegeType.AllPriv)
      (composeGlobalPrivUpdateOrd ordSwapped PrivilegeType.AllPriv) :=
  (grant_C9_deterministic_up_to_perm Priv2UserCol ordSwapped PrivilegeType.AllPriv
    (List.Perm.refl _)
    (by unfold ordSwapped Priv2UserCol; exact List.Perm.swap _ _ _)).1
